import Mathlib

/-!
Shallow embedding of the playoff-odds core of `reddit-habs/playoffsbot`
(`src/simulation.rs`, `src/analysis.rs`, `src/nhlapi.rs`).

Randomness (`rand::thread_rng` driving `choose_weighted`) is abstracted as an
explicit oracle of game events: `random_event` becomes "read the next event
from the oracle stream".  Machine integers (`u32`) are modelled as `Nat`; the
only arithmetic performed is bounded increments far below `2^32`, so no
wrap-around can occur in the source.  Rust panics (`unwrap`, `expect`,
out-of-bounds indexing) are modelled with `Option`.
-/

namespace Playoffs

/-- `struct Entry` of `simulation.rs`: one team's mutable projection state. -/
structure Entry where
  team_id : Nat
  division_id : Nat
  wins : Nat
  losses : Nat
  ot : Nat
  games_played : Nat
  points : Nat
deriving DecidableEq, Repr

/-- `enum Event` of `simulation.rs`. -/
inductive Event where
  | win
  | loss
  | otl
deriving DecidableEq, Repr

/-- `Event::points`. -/
def Event.pts : Event → Nat
  | .win => 2
  | .loss => 0
  | .otl => 1

/-- The body of the `while` loop of `Simulation::run`: apply one sampled
event to a working entry (`games_played += 1; points += event.points();`
then bump the matching win/loss/ot counter). -/
def applyEvent (entry : Entry) (ev : Event) : Entry :=
  let entry := { entry with
    games_played := entry.games_played + 1
    points := entry.points + ev.pts }
  match ev with
  | .win => { entry with wins := entry.wins + 1 }
  | .loss => { entry with losses := entry.losses + 1 }
  | .otl => { entry with ot := entry.ot + 1 }

theorem applyEvent_games_played (e : Entry) (ev : Event) :
    (applyEvent e ev).games_played = e.games_played + 1 := by
  cases ev <;> rfl

theorem applyEvent_division_id (e : Entry) (ev : Event) :
    (applyEvent e ev).division_id = e.division_id := by
  cases ev <;> rfl

theorem applyEvent_team_id (e : Entry) (ev : Event) :
    (applyEvent e ev).team_id = e.team_id := by
  cases ev <;> rfl

/-- The `while entry.games_played < 82` loop of `Simulation::run`, completing
one team's season.  `oracle n` is the event drawn by `random_event` at the
`n`-th iteration for this team. -/
def completeEntry (oracle : Nat → Event) (step : Nat) (entry : Entry) : Entry :=
  if entry.games_played < 82 then
    completeEntry oracle (step + 1) (applyEvent entry (oracle step))
  else entry
termination_by 82 - entry.games_played
decreasing_by simp only [applyEvent_games_played]; omega

/-- The per-team completion loop of `Simulation::run` over the cloned base
(`for (base, entry) in self.base.iter().zip(entries.iter_mut())`): each entry
starts from its base record and is completed independently; `oracle i` is the
event stream for the `i`-th team. -/
def completeAll (oracle : Nat → Nat → Event) : List Entry → List Entry
  | [] => []
  | e :: rest => completeEntry (oracle 0) 0 e :: completeAll (fun i => oracle (i + 1)) rest

/-- The descending sort key of `Simulation::run`:
`entries.sort_unstable_by_key(|e| Reverse((e.points, e.wins)))`.
`keyGE a b` holds when `a` sorts no later than `b`, i.e. `a`'s
`(points, wins)` pair is lexicographically `≥` `b`'s. -/
def keyGE (a b : Entry) : Bool :=
  b.points < a.points || (a.points == b.points && b.wins ≤ a.wins)

/-- Insert into a list already sorted by `keyGE` (descending points, then
descending wins). -/
def insertSorted (e : Entry) : List Entry → List Entry
  | [] => [e]
  | x :: xs => if keyGE e x then e :: x :: xs else x :: insertSorted e xs

/-- `sort_unstable_by_key(|e| Reverse((e.points, e.wins)))`: sort descending
by `(points, wins)`.  `sort_unstable` leaves the order of key-equal entries
unspecified; this embedding fixes one deterministic such order. -/
def sortEntries : List Entry → List Entry
  | [] => []
  | e :: xs => insertSorted e (sortEntries xs)

/-- The `top_3_teams` set of `Simulation::run`: ids of the first three sorted
entries of the target team's division chained with the first three sorted
entries of the other divisions (`division_id != my_division`). -/
def top3Ids (sorted : List Entry) (myDiv : Nat) : List Nat :=
  ((sorted.filter (fun e => e.division_id == myDiv)).take 3).map (·.team_id)
    ++ ((sorted.filter (fun e => !(e.division_id == myDiv))).take 3).map (·.team_id)

/-- The `wildcard` set of `Simulation::run`: ids of the first two sorted
entries not already in `top_3_teams`. -/
def wildcardIds (sorted : List Entry) (top3 : List Nat) : List Nat :=
  ((sorted.filter (fun e => !(top3.contains e.team_id))).take 2).map (·.team_id)

/-- The qualification decision at the end of `Simulation::run`, as a function
of the completed entries: sort, build division qualifiers and wildcards, and
test membership of the target team. -/
def runQualifies (entries : List Entry) (myId myDiv : Nat) : Bool :=
  let sorted := sortEntries entries
  let top3 := top3Ids sorted myDiv
  let wc := wildcardIds sorted top3
  top3.contains myId || wc.contains myId

/-- `Simulation::run`: complete every base entry, then apply the
qualification rule to the resulting snapshot. -/
def simQualifies (base : List Entry) (myId myDiv : Nat)
    (oracle : Nat → Nat → Event) : Bool :=
  runQualifies (completeAll oracle base) myId myDiv

/-- `Simulation::run_for`: run `times` independent trials and count how many
had the target team qualify.  `oracles t` is the event-stream family used by
trial `t`. -/
def runFor (base : List Entry) (myId myDiv : Nat) (times : Nat)
    (oracles : Nat → Nat → Nat → Event) : Nat :=
  ((List.range times).filter (fun t => simQualifies base myId myDiv (oracles t))).length

/-- `Simulation::give_team_win`: find the first entry of the given team and
record one extra win (`wins += 1; points += 2; games_played += 1`); no entry
matching is a no-op. -/
def giveTeamWin : List Entry → Nat → List Entry
  | [], _ => []
  | e :: rest, tid =>
    if e.team_id == tid then
      { e with wins := e.wins + 1, points := e.points + 2,
               games_played := e.games_played + 1 } :: rest
    else e :: giveTeamWin rest tid

/-- `Simulation::give_team_loss`: find the first entry of the given team and
record one extra regulation loss (`losses += 1; games_played += 1`). -/
def giveTeamLoss : List Entry → Nat → List Entry
  | [], _ => []
  | e :: rest, tid =>
    if e.team_id == tid then
      { e with losses := e.losses + 1, games_played := e.games_played + 1 } :: rest
    else e :: giveTeamLoss rest tid

/-- `nhlapi::teams::Team`, restricted to the fields the core reads:
`id`, `division.id`, `conference.id`. -/
structure ApiTeam where
  id : Nat
  division_id : Nat
  conference_id : Nat
deriving DecidableEq, Repr

/-- `nhlapi::standings::TeamRecord`, restricted to the fields `Simulation::new`
and the bracket builder read: team id, league record, games played, points. -/
structure SRecord where
  team_id : Nat
  wins : Nat
  losses : Nat
  ot : Nat
  games_played : Nat
  points : Nat
deriving DecidableEq, Repr

/-- `Api::get_team_by_id`: linear search of the roster; the source panics
(`expect("team id not found")`) when absent, modelled as `none`. -/
def getTeamById (teams : List ApiTeam) (tid : Nat) : Option ApiTeam :=
  teams.find? (fun t => t.id == tid)

/-- `Simulation::new`: for each standings record, look the team up in the
roster (a failed lookup is a panic, hence `none`), and keep an `Entry` for it
exactly when it is in the target team's conference. -/
def simulationNew (teams : List ApiTeam) (myConf : Nat) :
    List SRecord → Option (List Entry)
  | [] => some []
  | r :: rest => do
    let t ← getTeamById teams r.team_id
    let base ← simulationNew teams myConf rest
    if t.conference_id == myConf then
      pure ({ team_id := t.id, division_id := t.division_id, wins := r.wins,
              losses := r.losses, ot := r.ot, games_played := r.games_played,
              points := r.points } :: base)
    else
      pure base

/-- `pub const TIMES: u32 = 50_000;` -/
def TIMES : Nat := 50000

/-- `nhlapi::schedule::Game`, restricted to the participant team ids the
resolver reads (`game.home_team().id`, `game.away_team().id`). -/
structure Game where
  home_id : Nat
  away_id : Nat
deriving DecidableEq, Repr

/-- `simulation::pick_ideal_loser`: build two simulations from the same base
records, pre-seed one with a home win / away loss and the other with the
reverse, run each for `TIMES` trials, and return the away team exactly when
the home-win count is strictly greater.  `oHome` and `oAway` are the event
oracles consumed by the two `run_for` calls; the returned value is the id of
the chosen ideal loser. -/
def pickIdealLoser (teams : List ApiTeam) (myTeam : ApiTeam)
    (records : List SRecord) (game : Game)
    (oHome oAway : Nat → Nat → Nat → Event) : Option Nat := do
  let base ← simulationNew teams myTeam.conference_id records
  let homeWinX := runFor (giveTeamLoss (giveTeamWin base game.home_id) game.away_id)
      myTeam.id myTeam.division_id TIMES oHome
  let awayWinX := runFor (giveTeamLoss (giveTeamWin base game.away_id) game.home_id)
      myTeam.id myTeam.division_id TIMES oAway
  pure (if awayWinX < homeWinX then game.away_id else game.home_id)

/-- `simulation::odds_for_team`: run `TIMES` trials on the chosen standings
and divide the qualification count by `TIMES`.  The `f64` quotient is
modelled as the exact rational. -/
def oddsForTeam (teams : List ApiTeam) (myTeam : ApiTeam)
    (standings pastStandings : List SRecord) (past : Bool)
    (oracles : Nat → Nat → Nat → Event) : Option ℚ := do
  let base ← simulationNew teams myTeam.conference_id
      (if past then pastStandings else standings)
  pure ((runFor base myTeam.id myTeam.division_id TIMES oracles : ℚ) / (TIMES : ℚ))

/-- The `own_conference_team_ids` set built by `Analyzer::new`: ids of all
roster teams sharing the target team's conference. -/
def ownConferenceIds (teams : List ApiTeam) (myConf : Nat) : List Nat :=
  (teams.filter (fun t => t.conference_id == myConf)).map (·.id)

/-- Which arm of `MatchupPre::pick_winner`'s if-cascade a game takes. -/
inductive Branch where
  | involved
  | confHome
  | confAway
  | monteCarlo
deriving DecidableEq, Repr

/-- The branch selected by `MatchupPre::pick_winner`, with
`is_my_team_involed` computed as in `MatchupPre::create`
(`away.id == my.id || home.id == my.id`). -/
def pickWinnerBranch (myId : Nat) (ownConf : List Nat) (game : Game) : Branch :=
  if game.away_id == myId || game.home_id == myId then .involved
  else if ownConf.contains game.home_id && !(ownConf.contains game.away_id) then .confHome
  else if ownConf.contains game.away_id && !(ownConf.contains game.home_id) then .confAway
  else .monteCarlo

/-- The `ideal_loser` computed by `MatchupPre::pick_winner`, returned as a
team id.  `simLoser` stands for the id `simulation::pick_ideal_loser` would
return in the final branch; the internal `panic!("unexpected case in
pick_winner")` is modelled as `none`. -/
def pickWinnerLoser (myId : Nat) (ownConf : List Nat) (game : Game)
    (simLoser : Nat) : Option Nat :=
  if game.away_id == myId || game.home_id == myId then
    if myId == game.home_id then some game.away_id
    else if myId == game.away_id then some game.home_id
    else none
  else if ownConf.contains game.home_id && !(ownConf.contains game.away_id) then
    some game.home_id
  else if ownConf.contains game.away_id && !(ownConf.contains game.home_id) then
    some game.away_id
  else
    some simLoser

/-- `analysis::Seed`: a 1-based rank paired with a standings record. -/
structure Seed where
  seed : Nat
  record : SRecord
deriving DecidableEq, Repr

/-- One iteration of the seed-building loop of `Analyzer::perform`: a record
outside the conference is skipped; otherwise the team is looked up (panic on
failure, hence `none`) and pushed onto its division's seed list while that
list has fewer than 3 entries, and onto the wildcard list afterwards; the
seed number is the length of the receiving list plus one. -/
def seedStep (teams : List ApiTeam) (ownConf : List Nat) (myDiv : Nat)
    (acc : List Seed × List Seed × List Seed) (r : SRecord) :
    Option (List Seed × List Seed × List Seed) :=
  if ownConf.contains r.team_id then do
    let t ← getTeamById teams r.team_id
    if t.division_id == myDiv then
      if acc.1.length < 3 then
        pure (acc.1 ++ [⟨acc.1.length + 1, r⟩], acc.2.1, acc.2.2)
      else
        pure (acc.1, acc.2.1, acc.2.2 ++ [⟨acc.2.2.length + 1, r⟩])
    else
      if acc.2.1.length < 3 then
        pure (acc.1, acc.2.1 ++ [⟨acc.2.1.length + 1, r⟩], acc.2.2)
      else
        pure (acc.1, acc.2.1, acc.2.2 ++ [⟨acc.2.2.length + 1, r⟩])
  else
    pure acc

/-- The seed-building loop of `Analyzer::perform` over the standings, in
standings order: produces `(own_division_seed, other_division_seed,
wildcard_seed)`. -/
def buildSeeds (teams : List ApiTeam) (ownConf : List Nat) (myDiv : Nat)
    (records : List SRecord) : Option (List Seed × List Seed × List Seed) :=
  records.foldlM (seedStep teams ownConf myDiv) ([], [], [])

/-- `analysis::PlayoffMatchup`: a high-seed/low-seed pairing. -/
structure PlayoffMatchup where
  high : SRecord
  low : SRecord
deriving DecidableEq, Repr

/-- The bracket construction of `Analyzer::perform`: the two division leaders
are sorted descending by points (`tops.sort_unstable_by_key(Reverse(points))`
on a two-element vector: swap exactly when the other leader has strictly more
points), then paired `tops[0]` with `wildcard_seed[1]`, `tops[1]` with
`wildcard_seed[0]`, and each division's 2nd and 3rd seeds together.  A
missing index is an out-of-bounds panic, modelled as `none`. -/
def buildPlayoffs (own other wc : List Seed) : Option (List PlayoffMatchup) := do
  let o0 ← own[0]?
  let t0 ← other[0]?
  let tops := if o0.record.points < t0.record.points then (t0, o0) else (o0, t0)
  let o1 ← own[1]?
  let o2 ← own[2]?
  let t1 ← other[1]?
  let t2 ← other[2]?
  let w0 ← wc[0]?
  let w1 ← wc[1]?
  pure [⟨tops.1.record, w1.record⟩, ⟨tops.2.record, w0.record⟩,
        ⟨o1.record, o2.record⟩, ⟨t1.record, t2.record⟩]

/-- The seed-and-bracket part of `Analyzer::perform`: build the three seed
lists from current standings, then the playoff pairings. -/
def performBracket (teams : List ApiTeam) (ownConf : List Nat) (myDiv : Nat)
    (records : List SRecord) : Option (List PlayoffMatchup) := do
  let s ← buildSeeds teams ownConf myDiv records
  buildPlayoffs s.1 s.2.1 s.2.2

/-- Spec-side qualification rule (written from the spec's words, to be
compared with `runQualifies`): "take the top 3 entries of each division (by
the sorted order, filtered by division) as division qualifiers". -/
def specDivisionQualifiers (sorted : List Entry) (d1 d2 : Nat) : List Nat :=
  ((sorted.filter (fun e => e.division_id == d1)).take 3).map (·.team_id)
    ++ ((sorted.filter (fun e => e.division_id == d2)).take 3).map (·.team_id)

/-- Spec-side wildcard rule: "from the remaining conference entries (not
already division qualifiers), in sorted order, take the next 2". -/
def specWildcards (sorted : List Entry) (divQ : List Nat) : List Nat :=
  ((sorted.filter (fun e => !(divQ.contains e.team_id))).take 2).map (·.team_id)

/-- Spec-side qualification decision for a completed-season snapshot of a
conference with divisions `d1` (the target team's) and `d2`: sort by points
then wins descending, build division qualifiers and wildcards, and test
membership. -/
def specQualifies (snapshot : List Entry) (myId d1 d2 : Nat) : Bool :=
  let sorted := sortEntries snapshot
  let divQ := specDivisionQualifiers sorted d1 d2
  let wc := specWildcards sorted divQ
  divQ.contains myId || wc.contains myId

/-! ### Helper lemmas -/

/-- Any property preserved by `applyEvent` is preserved by the season
completion loop. -/
theorem completeEntry_preserves (P : Entry → Prop)
    (hP : ∀ e ev, P e → P (applyEvent e ev)) (oracle : Nat → Event) :
    ∀ (step : Nat) (e : Entry), P e → P (completeEntry oracle step e) := by
  have key : ∀ (n : Nat) (step : Nat) (e : Entry), 82 - e.games_played ≤ n →
      P e → P (completeEntry oracle step e) := by
    intro n
    induction n with
    | zero =>
      intro step e hn h
      rw [completeEntry]
      have : ¬ e.games_played < 82 := by omega
      simp only [this, if_false]
      exact h
    | succ n ih =>
      intro step e hn h
      rw [completeEntry]
      by_cases hlt : e.games_played < 82
      · simp only [hlt, if_true]
        exact ih _ _ (by rw [applyEvent_games_played]; omega) (hP _ _ h)
      · simp only [hlt, if_false]
        exact h
  intro step e h
  exact key (82 - e.games_played) step e le_rfl h

/-- The season completion loop stops exactly at 82 games played whenever it
starts at or below 82. -/
theorem completeEntry_games_played_eq (oracle : Nat → Event) :
    ∀ (step : Nat) (e : Entry), e.games_played ≤ 82 →
      (completeEntry oracle step e).games_played = 82 := by
  have key : ∀ (n : Nat) (step : Nat) (e : Entry), 82 - e.games_played ≤ n →
      e.games_played ≤ 82 → (completeEntry oracle step e).games_played = 82 := by
    intro n
    induction n with
    | zero =>
      intro step e hn h
      rw [completeEntry]
      have hge : ¬ e.games_played < 82 := by omega
      simp only [hge, if_false]
      omega
    | succ n ih =>
      intro step e hn h
      rw [completeEntry]
      by_cases hlt : e.games_played < 82
      · simp only [hlt, if_true]
        exact ih _ _ (by rw [applyEvent_games_played]; omega)
          (by rw [applyEvent_games_played]; omega)
      · simp only [hlt, if_false]
        omega
  intro step e h
  exact key (82 - e.games_played) step e le_rfl h

/-- A `completeEntry`-preserved property lifts to every entry of
`completeAll`. -/
theorem completeAll_preserves (P : Entry → Prop)
    (hP : ∀ e ev, P e → P (applyEvent e ev)) :
    ∀ (oracle : Nat → Nat → Event) (base : List Entry),
      (∀ e ∈ base, P e) → ∀ x ∈ completeAll oracle base, P x := by
  intro oracle base
  induction base generalizing oracle with
  | nil => intro _ x hx; simp [completeAll] at hx
  | cons e rest ih =>
    intro h x hx
    rw [completeAll] at hx
    rcases List.mem_cons.mp hx with hx | hx
    · subst hx
      exact completeEntry_preserves P hP (oracle 0) 0 e (h e (List.mem_cons_self _ _))
    · exact ih _ (fun y hy => h y (List.mem_cons_of_mem _ hy)) x hx

/-- Every entry of a completed trial has exactly 82 games played, provided
every base entry started at or below 82. -/
theorem completeAll_games_played (oracle : Nat → Nat → Event)
    (base : List Entry) (h : ∀ e ∈ base, e.games_played ≤ 82) :
    ∀ x ∈ completeAll oracle base, x.games_played = 82 := by
  induction base generalizing oracle with
  | nil => intro x hx; simp [completeAll] at hx
  | cons e rest ih =>
    intro x hx
    rw [completeAll] at hx
    rcases List.mem_cons.mp hx with hx | hx
    · subst hx
      exact completeEntry_games_played_eq (oracle 0) 0 e (h e (List.mem_cons_self _ _))
    · exact ih (fun i => oracle (i + 1)) (fun y hy => h y (List.mem_cons_of_mem _ hy)) x hx

theorem mem_insertSorted (e a : Entry) (l : List Entry) :
    a ∈ insertSorted e l ↔ a = e ∨ a ∈ l := by
  induction l with
  | nil => simp [insertSorted]
  | cons x xs ih =>
    rw [insertSorted]
    by_cases hk : keyGE e x
    · simp [hk]
    · simp only [Bool.not_eq_true] at hk
      simp [hk, ih]
      tauto

theorem mem_sortEntries (a : Entry) (l : List Entry) :
    a ∈ sortEntries l ↔ a ∈ l := by
  induction l with
  | nil => simp [sortEntries]
  | cons x xs ih =>
    rw [sortEntries, mem_insertSorted]
    simp [ih]

/-- `points = 2*wins + 1*ot_losses`, the points invariant of the spec's data
model. -/
def pointsInv (e : Entry) : Prop :=
  e.points = 2 * e.wins + 1 * e.ot

instance (e : Entry) : Decidable (pointsInv e) := by
  unfold pointsInv
  infer_instance

theorem applyEvent_pointsInv (e : Entry) (ev : Event) (h : pointsInv e) :
    pointsInv (applyEvent e ev) := by
  cases ev <;> simp [pointsInv, applyEvent, Event.pts] at h ⊢ <;> omega

theorem giveTeamWin_pointsInv (base : List Entry) (tid : Nat)
    (h : ∀ e ∈ base, pointsInv e) : ∀ x ∈ giveTeamWin base tid, pointsInv x := by
  induction base with
  | nil => intro x hx; simp [giveTeamWin] at hx
  | cons e rest ih =>
    intro x hx
    rw [giveTeamWin] at hx
    by_cases he : (e.team_id == tid) = true
    · simp only [he, if_true] at hx
      rcases List.mem_cons.mp hx with hx | hx
      · subst hx
        have := h e (List.mem_cons_self _ _)
        simp [pointsInv] at this ⊢
        omega
      · exact h x (List.mem_cons_of_mem _ hx)
    · simp only [he, if_false] at hx
      rcases List.mem_cons.mp hx with hx | hx
      · subst hx; exact h x (List.mem_cons_self _ _)
      · exact ih (fun y hy => h y (List.mem_cons_of_mem _ hy)) x hx

theorem giveTeamLoss_pointsInv (base : List Entry) (tid : Nat)
    (h : ∀ e ∈ base, pointsInv e) : ∀ x ∈ giveTeamLoss base tid, pointsInv x := by
  induction base with
  | nil => intro x hx; simp [giveTeamLoss] at hx
  | cons e rest ih =>
    intro x hx
    rw [giveTeamLoss] at hx
    by_cases he : (e.team_id == tid) = true
    · simp only [he, if_true] at hx
      rcases List.mem_cons.mp hx with hx | hx
      · subst hx
        have := h e (List.mem_cons_self _ _)
        simp [pointsInv] at this ⊢
        omega
      · exact h x (List.mem_cons_of_mem _ hx)
    · simp only [he, if_false] at hx
      rcases List.mem_cons.mp hx with hx | hx
      · subst hx; exact h x (List.mem_cons_self _ _)
      · exact ih (fun y hy => h y (List.mem_cons_of_mem _ hy)) x hx

theorem giveTeamWin_games_played (base : List Entry) (tid : Nat)
    (h : ∀ e ∈ base, e.games_played ≤ 81) :
    ∀ x ∈ giveTeamWin base tid, x.games_played ≤ 82 := by
  induction base with
  | nil => intro x hx; simp [giveTeamWin] at hx
  | cons e rest ih =>
    intro x hx
    rw [giveTeamWin] at hx
    by_cases he : (e.team_id == tid) = true
    · simp only [he, if_true] at hx
      rcases List.mem_cons.mp hx with hx | hx
      · subst hx
        have := h e (List.mem_cons_self _ _)
        simp
        omega
      · have := h x (List.mem_cons_of_mem _ hx); omega
    · simp only [he, if_false] at hx
      rcases List.mem_cons.mp hx with hx | hx
      · subst hx; have := h x (List.mem_cons_self _ _); omega
      · exact ih (fun y hy => h y (List.mem_cons_of_mem _ hy)) x hx

theorem giveTeamLoss_games_played (base : List Entry) (tid : Nat)
    (h : ∀ e ∈ base, e.games_played ≤ 81) :
    ∀ x ∈ giveTeamLoss base tid, x.games_played ≤ 82 := by
  induction base with
  | nil => intro x hx; simp [giveTeamLoss] at hx
  | cons e rest ih =>
    intro x hx
    rw [giveTeamLoss] at hx
    by_cases he : (e.team_id == tid) = true
    · simp only [he, if_true] at hx
      rcases List.mem_cons.mp hx with hx | hx
      · subst hx
        have := h e (List.mem_cons_self _ _)
        simp
        omega
      · have := h x (List.mem_cons_of_mem _ hx); omega
    · simp only [he, if_false] at hx
      rcases List.mem_cons.mp hx with hx | hx
      · subst hx; have := h x (List.mem_cons_self _ _); omega
      · exact ih (fun y hy => h y (List.mem_cons_of_mem _ hy)) x hx

/-! ### Claim theorems -/

/-- C1: Playoff qualification rule.  For every completed-season snapshot of
one conference with two divisions (`d1` the target team's, `d2` the other),
the decision made at the end of `Simulation::run` — sort by points then wins
descending, take the top 3 sorted entries of each division as division
qualifiers, take the next 2 remaining sorted entries as wildcards, and test
membership of the target team — coincides with the spec's description of that
rule. -/
theorem run_matches_spec_qualification_rule (base : List Entry)
    (myId d1 d2 : Nat) (oracle : Nat → Nat → Event) (hne : d1 ≠ d2)
    (hdiv : ∀ e ∈ base, e.division_id = d1 ∨ e.division_id = d2) :
    simQualifies base myId d1 oracle
      = specQualifies (completeAll oracle base) myId d1 d2 := by
  have hmem : ∀ a ∈ sortEntries (completeAll oracle base),
      a.division_id = d1 ∨ a.division_id = d2 := by
    intro a ha
    exact completeAll_preserves (fun e => e.division_id = d1 ∨ e.division_id = d2)
      (fun e ev h => by simpa only [applyEvent_division_id] using h) oracle base hdiv a
      ((mem_sortEntries a _).mp ha)
  have hfilter :
      (sortEntries (completeAll oracle base)).filter (fun e => !(e.division_id == d1))
        = (sortEntries (completeAll oracle base)).filter (fun e => e.division_id == d2) := by
    apply List.filter_congr
    intro a ha
    rcases hmem a ha with h | h
    · simp [h, hne]
    · simp [h, Ne.symm hne]
  unfold simQualifies runQualifies specQualifies
  unfold top3Ids specDivisionQualifiers wildcardIds specWildcards
  simp only [hfilter]

/-- Witness for C1 at a concrete snapshot: two divisions `10` and `20`, four
teams, target team `3`. -/
theorem run_matches_spec_qualification_rule_witness :
    simQualifies
        [⟨1, 10, 50, 30, 2, 82, 102⟩, ⟨2, 20, 45, 35, 2, 82, 92⟩,
         ⟨3, 10, 40, 40, 2, 82, 82⟩, ⟨4, 20, 30, 50, 2, 82, 62⟩]
        3 10 (fun _ _ => Event.win)
      = specQualifies
          (completeAll (fun _ _ => Event.win)
            [⟨1, 10, 50, 30, 2, 82, 102⟩, ⟨2, 20, 45, 35, 2, 82, 92⟩,
             ⟨3, 10, 40, 40, 2, 82, 82⟩, ⟨4, 20, 30, 50, 2, 82, 62⟩])
          3 10 20 :=
  run_matches_spec_qualification_rule _ 3 10 20 _ (by decide) (by decide)

/-- C3 counterexample: pre-seeding a team that has already played 82 games
(`give_team_win` increments `games_played` unconditionally) pushes it to 83,
and the `while games_played < 82` loop then leaves it at 83 — the trial
completes with an entry whose `games_played` is neither equal to nor below
82. -/
theorem games_played_82_counterexample :
    ((completeAll (fun _ _ => Event.win)
        (giveTeamWin [⟨1, 10, 41, 41, 0, 82, 82⟩] 1)).map
      (fun e => e.games_played)) = [83] ∧
    ¬ (∀ x ∈ completeAll (fun _ _ => Event.win)
          (giveTeamWin [⟨1, 10, 41, 41, 0, 82, 82⟩] 1), x.games_played ≤ 82) := by
  have h1 : giveTeamWin [⟨1, 10, 41, 41, 0, 82, 82⟩] 1
      = [⟨1, 10, 42, 41, 0, 83, 84⟩] := by rfl
  have h2 : completeEntry (fun _ => Event.win) 0 ⟨1, 10, 42, 41, 0, 83, 84⟩
      = ⟨1, 10, 42, 41, 0, 83, 84⟩ := by
    rw [completeEntry]
    simp
  constructor
  · rw [h1]
    simp [completeAll, h2]
  · intro h
    have := h ⟨1, 10, 42, 41, 0, 83, 84⟩ (by rw [h1]; simp [completeAll, h2])
    simp at this

/-- C3 amended: if every base entry starts a trial with `games_played ≤ 82`,
every entry of the trial's output has `games_played` exactly 82 (so the bound
is never exceeded during the run); `give_team_win` and `give_team_loss` each
add one game, so they keep `games_played ≤ 82` provided the entries they
touch had `games_played ≤ 81`. -/
theorem games_played_82_amended (base : List Entry)
    (oracle : Nat → Nat → Event) (tid : Nat)
    (h : ∀ e ∈ base, e.games_played ≤ 82) :
    (∀ x ∈ completeAll oracle base, x.games_played = 82) ∧
    ((∀ e ∈ base, e.games_played ≤ 81) →
      (∀ x ∈ giveTeamWin base tid, x.games_played ≤ 82) ∧
      (∀ x ∈ giveTeamLoss base tid, x.games_played ≤ 82)) := by
  refine ⟨completeAll_games_played oracle base h, fun h81 => ⟨?_, ?_⟩⟩
  · exact giveTeamWin_games_played base tid h81
  · exact giveTeamLoss_games_played base tid h81

/-- Witness for the amended C3 at a concrete base of two entries with 81 and
80 games played. -/
theorem games_played_82_amended_witness :
    (∀ x ∈ completeAll (fun _ _ => Event.loss)
        [⟨1, 10, 40, 40, 1, 81, 81⟩, ⟨2, 20, 41, 38, 1, 80, 83⟩],
      x.games_played = 82) ∧
    ((∀ e ∈ ([⟨1, 10, 40, 40, 1, 81, 81⟩, ⟨2, 20, 41, 38, 1, 80, 83⟩] : List Entry),
        e.games_played ≤ 81) →
      (∀ x ∈ giveTeamWin [⟨1, 10, 40, 40, 1, 81, 81⟩, ⟨2, 20, 41, 38, 1, 80, 83⟩] 1,
        x.games_played ≤ 82) ∧
      (∀ x ∈ giveTeamLoss [⟨1, 10, 40, 40, 1, 81, 81⟩, ⟨2, 20, 41, 38, 1, 80, 83⟩] 1,
        x.games_played ≤ 82)) :=
  games_played_82_amended _ _ 1 (by decide)

/-- C4: the points identity `points = 2*wins + 1*ot_losses` is preserved by a
full simulation trial and by both pre-seeding operations, and each sampled
event has exactly the claimed effect (a win adds 2 points and one win, an
overtime loss adds 1 point and one ot-loss, a regulation loss adds 0 points
and one loss). -/
theorem points_invariant_preserved (base : List Entry)
    (oracle : Nat → Nat → Event) (tid : Nat)
    (h : ∀ e ∈ base, pointsInv e) :
    (∀ x ∈ completeAll oracle base, pointsInv x) ∧
    (∀ x ∈ giveTeamWin base tid, pointsInv x) ∧
    (∀ x ∈ giveTeamLoss base tid, pointsInv x) ∧
    (∀ e : Entry,
      applyEvent e Event.win
          = { e with wins := e.wins + 1, points := e.points + 2,
                     games_played := e.games_played + 1 } ∧
      applyEvent e Event.otl
          = { e with ot := e.ot + 1, points := e.points + 1,
                     games_played := e.games_played + 1 } ∧
      applyEvent e Event.loss
          = { e with losses := e.losses + 1,
                     games_played := e.games_played + 1 }) := by
  refine ⟨?_, giveTeamWin_pointsInv base tid h, giveTeamLoss_pointsInv base tid h,
    fun e => ⟨rfl, rfl, rfl⟩⟩
  exact completeAll_preserves pointsInv
    (fun e ev hp => applyEvent_pointsInv e ev hp) oracle base h

/-- Witness for C4 at a concrete base satisfying the points identity. -/
theorem points_invariant_preserved_witness :
    (∀ x ∈ completeAll (fun _ _ => Event.otl) [⟨1, 10, 40, 30, 2, 72, 82⟩],
      pointsInv x) ∧
    (∀ x ∈ giveTeamWin [⟨1, 10, 40, 30, 2, 72, 82⟩] 1, pointsInv x) ∧
    (∀ x ∈ giveTeamLoss [⟨1, 10, 40, 30, 2, 72, 82⟩] 1, pointsInv x) ∧
    (∀ e : Entry,
      applyEvent e Event.win
          = { e with wins := e.wins + 1, points := e.points + 2,
                     games_played := e.games_played + 1 } ∧
      applyEvent e Event.otl
          = { e with ot := e.ot + 1, points := e.points + 1,
                     games_played := e.games_played + 1 } ∧
      applyEvent e Event.loss
          = { e with losses := e.losses + 1,
                     games_played := e.games_played + 1 }) :=
  points_invariant_preserved _ _ 1 (by decide)

/-- C2: the Monte Carlo branch of the Ideal-Outcome Resolver.  From the base
entries built by `Simulation::new`, one scenario pre-seeds a home win and an
away loss, the other the reverse; both run for the same `TIMES` trials, and
the away team is returned as ideal loser exactly when the home-win scenario
(the away team's loss scenario) produced the strictly higher qualification
count for the target team, the home team otherwise. -/
theorem pick_ideal_loser_comparison (teams : List ApiTeam) (myTeam : ApiTeam)
    (records : List SRecord) (game : Game)
    (oHome oAway : Nat → Nat → Nat → Event) (base : List Entry)
    (hbase : simulationNew teams myTeam.conference_id records = some base) :
    pickIdealLoser teams myTeam records game oHome oAway
      = some (if runFor (giveTeamLoss (giveTeamWin base game.away_id) game.home_id)
                  myTeam.id myTeam.division_id TIMES oAway
                < runFor (giveTeamLoss (giveTeamWin base game.home_id) game.away_id)
                  myTeam.id myTeam.division_id TIMES oHome
              then game.away_id else game.home_id) := by
  unfold pickIdealLoser
  rw [hbase]
  rfl

/-- Witness for C2 at a concrete two-team conference and a game between the
two teams. -/
theorem pick_ideal_loser_comparison_witness :
    pickIdealLoser [⟨1, 10, 100⟩, ⟨2, 20, 100⟩] ⟨1, 10, 100⟩
        [⟨1, 41, 41, 0, 82, 82⟩, ⟨2, 41, 41, 0, 82, 82⟩] ⟨1, 2⟩
        (fun _ _ _ => Event.win) (fun _ _ _ => Event.loss)
      = some (if runFor (giveTeamLoss (giveTeamWin
                    [⟨1, 10, 41, 41, 0, 82, 82⟩, ⟨2, 20, 41, 41, 0, 82, 82⟩] 2) 1)
                  1 10 TIMES (fun _ _ _ => Event.loss)
                < runFor (giveTeamLoss (giveTeamWin
                    [⟨1, 10, 41, 41, 0, 82, 82⟩, ⟨2, 20, 41, 41, 0, 82, 82⟩] 1) 2)
                  1 10 TIMES (fun _ _ _ => Event.win)
              then (2 : Nat) else 1) :=
  pick_ideal_loser_comparison _ _ _ ⟨1, 2⟩ _ _ _ (by rfl)

/-- C10: the implicit tie-break of the Monte Carlo comparison.  When the two
pre-seeded scenarios produce equal qualification counts, `pick_ideal_loser`
returns the home team (the `if home_win_x > away_win_x` test fails on
equality). -/
theorem pick_ideal_loser_tie_returns_home (teams : List ApiTeam)
    (myTeam : ApiTeam) (records : List SRecord) (game : Game)
    (oHome oAway : Nat → Nat → Nat → Event) (base : List Entry)
    (hbase : simulationNew teams myTeam.conference_id records = some base)
    (heq : runFor (giveTeamLoss (giveTeamWin base game.home_id) game.away_id)
              myTeam.id myTeam.division_id TIMES oHome
          = runFor (giveTeamLoss (giveTeamWin base game.away_id) game.home_id)
              myTeam.id myTeam.division_id TIMES oAway) :
    pickIdealLoser teams myTeam records game oHome oAway = some game.home_id := by
  unfold pickIdealLoser
  rw [hbase]
  simp [heq]

/-- The trial counter on an empty base is zero: an empty snapshot never has
the target team qualify. -/
theorem runFor_nil (myId myDiv n : Nat) (o : Nat → Nat → Nat → Event) :
    runFor [] myId myDiv n o = 0 := by
  unfold runFor
  have h : ∀ t, simQualifies [] myId myDiv (o t) = false := fun t => rfl
  simp [h]

/-- Witness for C10: with no standings records both scenario counts are zero,
and the home team (id 1) is returned. -/
theorem pick_ideal_loser_tie_returns_home_witness :
    pickIdealLoser [⟨1, 10, 100⟩, ⟨2, 10, 100⟩] ⟨5, 10, 100⟩ [] ⟨1, 2⟩
        (fun _ _ _ => Event.win) (fun _ _ _ => Event.loss) = some 1 :=
  pick_ideal_loser_tie_returns_home _ _ _ ⟨1, 2⟩ _ _ [] (by rfl)
    (by
      show runFor [] 5 10 TIMES (fun _ _ _ => Event.win)
          = runFor [] 5 10 TIMES (fun _ _ _ => Event.loss)
      rw [runFor_nil, runFor_nil])

/-- C5: rule priority of the Ideal-Outcome Resolver.  Whenever the target
team is a participant (by id, home or away), `MatchupPre::pick_winner`
returns the opponent as ideal loser, whatever result the Monte Carlo branch
would have produced, and the branch taken is never the Monte Carlo one. -/
theorem pick_winner_target_participant (myId : Nat) (ownConf : List Nat)
    (game : Game) (simLoser : Nat)
    (h : game.home_id = myId ∨ game.away_id = myId) :
    pickWinnerLoser myId ownConf game simLoser
        = some (if game.home_id = myId then game.away_id else game.home_id) ∧
    pickWinnerBranch myId ownConf game ≠ Branch.monteCarlo := by
  unfold pickWinnerLoser pickWinnerBranch
  have hinv : (game.away_id == myId || game.home_id == myId) = true := by
    rcases h with h | h <;> simp [h]
  rw [hinv]
  by_cases hh : game.home_id = myId
  · simp [hh]
  · have ha : game.away_id = myId := by tauto
    simp [ha, hh]

/-- Witness for C5: the target team (id 7) is the away participant; the home
team (id 3) is returned regardless of the Monte Carlo answer. -/
theorem pick_winner_target_participant_witness :
    pickWinnerLoser 7 [3, 7] ⟨3, 7⟩ 999
        = some (if (3 : Nat) = 7 then 7 else 3) ∧
    pickWinnerBranch 7 [3, 7] ⟨3, 7⟩ ≠ Branch.monteCarlo :=
  pick_winner_target_participant 7 [3, 7] ⟨3, 7⟩ 999 (Or.inr rfl)

/-- C6: the conference-asymmetry rule of the Ideal-Outcome Resolver.  For a
game not involving the target team where exactly one participant is in the
target team's conference, that in-conference participant is returned as
ideal loser, whatever result the Monte Carlo branch would have produced, and
the branch taken is never the Monte Carlo one. -/
theorem pick_winner_conference_asymmetry (myId : Nat) (ownConf : List Nat)
    (game : Game) (simLoser : Nat)
    (hh : game.home_id ≠ myId) (ha : game.away_id ≠ myId)
    (hx : ownConf.contains game.home_id ≠ ownConf.contains game.away_id) :
    pickWinnerLoser myId ownConf game simLoser
        = some (if ownConf.contains game.home_id then game.home_id else game.away_id) ∧
    pickWinnerBranch myId ownConf game ≠ Branch.monteCarlo := by
  unfold pickWinnerLoser pickWinnerBranch
  have hinv : (game.away_id == myId || game.home_id == myId) = false := by
    simp [hh, ha]
  rw [hinv]
  have hx2 : (game.home_id ∈ ownConf) ≠ (game.away_id ∈ ownConf) := by
    intro h2
    apply hx
    simp only [List.contains, List.elem_eq_mem, h2]
  by_cases hmem : game.home_id ∈ ownConf
  · have hamem : game.away_id ∉ ownConf := by
      intro h2
      exact hx2 (by simp [hmem, h2])
    simp [hmem, hamem]
  · have hamem : game.away_id ∈ ownConf := by
      by_contra h2
      exact hx2 (by simp [hmem, h2])
    simp [hmem, hamem]

/-- Witness for C6: a game between in-conference team 3 and out-of-conference
team 9, target team 7 not involved; team 3 is returned regardless of the
Monte Carlo answer. -/
theorem pick_winner_conference_asymmetry_witness :
    pickWinnerLoser 7 [3, 7] ⟨3, 9⟩ 999
        = some (if List.contains [3, 7] 3 then 3 else 9) ∧
    pickWinnerBranch 7 [3, 7] ⟨3, 9⟩ ≠ Branch.monteCarlo :=
  pick_winner_conference_asymmetry 7 [3, 7] ⟨3, 9⟩ 999 (by decide) (by decide)
    (by decide)

/-- C7: Odds Estimator bounds.  `run_for` counts qualifying trials among `n`,
so the count is at most `n`; for positive `n` the estimate `count / n` lies
in `[0, 1]` (as an exact rational, modelling the `f64` quotient); and a
single trial yields a count of exactly 0 or 1, so the estimate is exactly 0
or 1. -/
theorem run_for_bounds (base : List Entry) (myId myDiv n : Nat)
    (oracles : Nat → Nat → Nat → Event) :
    runFor base myId myDiv n oracles ≤ n ∧
    (0 < n →
      (0 : ℚ) ≤ (runFor base myId myDiv n oracles : ℚ) / (n : ℚ) ∧
      (runFor base myId myDiv n oracles : ℚ) / (n : ℚ) ≤ 1) ∧
    (n = 1 →
      runFor base myId myDiv n oracles = 0 ∨ runFor base myId myDiv n oracles = 1) := by
  have hle : runFor base myId myDiv n oracles ≤ n := by
    unfold runFor
    calc ((List.range n).filter fun t => simQualifies base myId myDiv (oracles t)).length
        ≤ (List.range n).length := List.length_filter_le _ _
      _ = n := List.length_range n
  refine ⟨hle, fun hn => ⟨?_, ?_⟩, fun h1 => ?_⟩
  · positivity
  · rw [div_le_one (by positivity)]
    exact_mod_cast hle
  · subst h1
    omega

/-- Witness for C7 at one trial over a one-team base. -/
theorem run_for_bounds_witness :
    runFor [⟨1, 10, 41, 41, 0, 82, 82⟩] 1 10 1 (fun _ _ _ => Event.win) ≤ 1 ∧
    ((0 : ℚ) ≤ (runFor [⟨1, 10, 41, 41, 0, 82, 82⟩] 1 10 1 (fun _ _ _ => Event.win) : ℚ) / (1 : ℚ) ∧
      (runFor [⟨1, 10, 41, 41, 0, 82, 82⟩] 1 10 1 (fun _ _ _ => Event.win) : ℚ) / (1 : ℚ) ≤ 1) ∧
    (runFor [⟨1, 10, 41, 41, 0, 82, 82⟩] 1 10 1 (fun _ _ _ => Event.win) = 0 ∨
      runFor [⟨1, 10, 41, 41, 0, 82, 82⟩] 1 10 1 (fun _ _ _ => Event.win) = 1) := by
  obtain ⟨h1, h2, h3⟩ :=
    run_for_bounds [⟨1, 10, 41, 41, 0, 82, 82⟩] 1 10 1 (fun _ _ _ => Event.win)
  exact ⟨h1, h2 (by decide), h3 rfl⟩

/-- C9 counterexample: calling the trial runner with zero trials does not
fail — it returns the count 0 at this concrete input. -/
theorem zero_trials_counterexample :
    runFor [⟨1, 10, 5, 3, 1, 82, 11⟩] 1 10 0 (fun _ _ _ => Event.win) = 0 := rfl

/-- C9 amended: the code does not treat zero trials as an error.  `run_for`
with `times = 0` returns the count 0 for every input, and the estimator's
only division (`odds_for_team`) is by the fixed constant `TIMES = 50_000`,
which is positive, so no division by zero can occur. -/
theorem zero_trials_amended :
    (∀ (base : List Entry) (myId myDiv : Nat) (oracles : Nat → Nat → Nat → Event),
      runFor base myId myDiv 0 oracles = 0) ∧ 0 < TIMES := by
  refine ⟨fun base myId myDiv oracles => rfl, by decide⟩

/-- C8: bracket construction.  From current standings producing at least 3
seeds per division and at least 2 wildcard seeds, `Analyzer::perform` builds
exactly 4 pairings: the strictly-higher-points division leader against the
2nd wildcard seed, the lower-points leader against the 1st wildcard seed,
and each division's 2nd and 3rd seeds against each other. -/
theorem bracket_pairing (teams : List ApiTeam) (ownConf : List Nat)
    (myDiv : Nat) (records : List SRecord) (own other wc : List Seed)
    (o0 o1 o2 t0 t1 t2 w0 w1 : Seed)
    (hs : buildSeeds teams ownConf myDiv records = some (own, other, wc))
    (ho0 : own[0]? = some o0) (ho1 : own[1]? = some o1) (ho2 : own[2]? = some o2)
    (ht0 : other[0]? = some t0) (ht1 : other[1]? = some t1) (ht2 : other[2]? = some t2)
    (hw0 : wc[0]? = some w0) (hw1 : wc[1]? = some w1)
    (hne : o0.record.points ≠ t0.record.points) :
    performBracket teams ownConf myDiv records
      = some [⟨(if t0.record.points < o0.record.points then o0 else t0).record, w1.record⟩,
              ⟨(if t0.record.points < o0.record.points then t0 else o0).record, w0.record⟩,
              ⟨o1.record, o2.record⟩, ⟨t1.record, t2.record⟩] ∧
    (performBracket teams ownConf myDiv records).map List.length = some 4 := by
  have hmain : performBracket teams ownConf myDiv records
      = some [⟨(if t0.record.points < o0.record.points then o0 else t0).record, w1.record⟩,
              ⟨(if t0.record.points < o0.record.points then t0 else o0).record, w0.record⟩,
              ⟨o1.record, o2.record⟩, ⟨t1.record, t2.record⟩] := by
    unfold performBracket buildPlayoffs
    rw [hs]
    simp only [Option.bind_eq_bind, Option.some_bind]
    rw [ho0, ht0, ho1, ho2, ht1, ht2, hw0, hw1]
    rcases lt_trichotomy o0.record.points t0.record.points with h | h | h
    · simp [h, not_lt_of_gt h]
    · exact absurd h hne
    · simp [h, not_lt_of_gt h]
  exact ⟨hmain, by rw [hmain]; rfl⟩

/-- Witness for C8 on a concrete 8-team conference (two divisions of four,
leaders at 100 and 95 points, wildcards at 70 and 65). -/
theorem bracket_pairing_witness :
    performBracket
        [⟨1, 10, 100⟩, ⟨2, 10, 100⟩, ⟨3, 10, 100⟩, ⟨4, 10, 100⟩,
         ⟨5, 20, 100⟩, ⟨6, 20, 100⟩, ⟨7, 20, 100⟩, ⟨8, 20, 100⟩]
        [1, 2, 3, 4, 5, 6, 7, 8] 10
        [⟨1, 0, 0, 0, 0, 100⟩, ⟨5, 0, 0, 0, 0, 95⟩, ⟨2, 0, 0, 0, 0, 90⟩,
         ⟨6, 0, 0, 0, 0, 85⟩, ⟨3, 0, 0, 0, 0, 80⟩, ⟨7, 0, 0, 0, 0, 75⟩,
         ⟨4, 0, 0, 0, 0, 70⟩, ⟨8, 0, 0, 0, 0, 65⟩]
      = some [⟨(if (95 : Nat) < 100 then (⟨1, ⟨1, 0, 0, 0, 0, 100⟩⟩ : Seed)
                  else ⟨1, ⟨5, 0, 0, 0, 0, 95⟩⟩).record, (⟨2, ⟨8, 0, 0, 0, 0, 65⟩⟩ : Seed).record⟩,
              ⟨(if (95 : Nat) < 100 then (⟨1, ⟨5, 0, 0, 0, 0, 95⟩⟩ : Seed)
                  else ⟨1, ⟨1, 0, 0, 0, 0, 100⟩⟩).record, (⟨1, ⟨4, 0, 0, 0, 0, 70⟩⟩ : Seed).record⟩,
              ⟨⟨2, 0, 0, 0, 0, 90⟩, ⟨3, 0, 0, 0, 0, 80⟩⟩,
              ⟨⟨6, 0, 0, 0, 0, 85⟩, ⟨7, 0, 0, 0, 0, 75⟩⟩] ∧
    (performBracket
        [⟨1, 10, 100⟩, ⟨2, 10, 100⟩, ⟨3, 10, 100⟩, ⟨4, 10, 100⟩,
         ⟨5, 20, 100⟩, ⟨6, 20, 100⟩, ⟨7, 20, 100⟩, ⟨8, 20, 100⟩]
        [1, 2, 3, 4, 5, 6, 7, 8] 10
        [⟨1, 0, 0, 0, 0, 100⟩, ⟨5, 0, 0, 0, 0, 95⟩, ⟨2, 0, 0, 0, 0, 90⟩,
         ⟨6, 0, 0, 0, 0, 85⟩, ⟨3, 0, 0, 0, 0, 80⟩, ⟨7, 0, 0, 0, 0, 75⟩,
         ⟨4, 0, 0, 0, 0, 70⟩, ⟨8, 0, 0, 0, 0, 65⟩]).map List.length = some 4 :=
  bracket_pairing _ _ 10 _
    [⟨1, ⟨1, 0, 0, 0, 0, 100⟩⟩, ⟨2, ⟨2, 0, 0, 0, 0, 90⟩⟩, ⟨3, ⟨3, 0, 0, 0, 0, 80⟩⟩]
    [⟨1, ⟨5, 0, 0, 0, 0, 95⟩⟩, ⟨2, ⟨6, 0, 0, 0, 0, 85⟩⟩, ⟨3, ⟨7, 0, 0, 0, 0, 75⟩⟩]
    [⟨1, ⟨4, 0, 0, 0, 0, 70⟩⟩, ⟨2, ⟨8, 0, 0, 0, 0, 65⟩⟩]
    _ _ _ _ _ _ _ _ (by decide) rfl rfl rfl rfl rfl rfl rfl rfl (by decide)
